import Mathlib

/-!
Verification of the trust layer of picocode: the lexical path sandbox
(`validate_path` in `src/tools.rs`), the confirmation guard (`Guard` in
`src/agent.rs`), tool registration (`build_rig_agent`), the conversation
turn (`CodeAgent::prompt`), and the interactive-loop mode framing
(`run_interactive`).

Paths are modelled the way the Rust `std::path` module treats them on Unix: a path
is a sequence of components (`RootDir`, `CurDir`, `ParentDir`, `Normal`),
obtained lexically from the string, never consulting the filesystem.
-/

namespace Picocode

/-- Rust `std::path::Component` restricted to the Unix variants. -/
inductive Component where
  | RootDir
  | CurDir
  | ParentDir
  | Normal (s : String)
deriving DecidableEq, Repr

/-- `ToolError` from `src/tools.rs`: `Io(String)` and `Generic(String)`. -/
inductive ToolError where
  | Io (msg : String)
  | Generic (msg : String)
deriving DecidableEq, Repr

/-- Split a character list into segments at `/` separators
(the segment view underlying the Rust `Path::components` iterator). -/
def splitSegs : List Char → List (List Char)
  | [] => [[]]
  | c :: rest =>
    match splitSegs rest with
    | [] => [[]]
    | seg :: segs => if c = '/' then [] :: seg :: segs else (c :: seg) :: segs

/-- Rust `Path::is_absolute` on Unix: the string begins with `/`. -/
def startsWithSlash (s : String) : Bool :=
  match s.toList with
  | [] => false
  | c :: _ => c = '/'

/-- Whether a relative path string begins with a `.` segment
(Rust keeps a leading `CurDir` component exactly in this case). -/
def isDotSlashStart (s : String) : Bool :=
  match s.toList with
  | ['.'] => true
  | '.' :: '/' :: _ => true
  | _ => false

/-- One path segment as a component: `..` is `ParentDir`, anything else
(a three-dot name included) is an ordinary `Normal` filename. -/
def segToComponent (t : List Char) : Component :=
  if t = ['.', '.'] then Component.ParentDir else Component.Normal (String.mk t)

/-- Rust `Path::components` on Unix: empty and `.` segments vanish
(except a leading `.` of a relative path, kept as `CurDir`), a leading
`/` becomes `RootDir`, `..` becomes `ParentDir`. -/
def pathComponents (s : String) : List Component :=
  let segs := (splitSegs s.toList).filter (fun t => !t.isEmpty && t ≠ ['.'])
  let comps := segs.map segToComponent
  if startsWithSlash s then Component.RootDir :: comps
  else if isDotSlashStart s then Component.CurDir :: comps
  else comps

/-- Components of `base.join(path)` as in `validate_path`: an absolute
`path` replaces `base`; otherwise the components concatenate, a leading
`CurDir` of `path` becoming interior and hence dropped (unless `base`
itself has no components). -/
def joinedComponents (base path : String) : List Component :=
  if startsWithSlash path then pathComponents path
  else
    let b := pathComponents base
    if b.isEmpty then pathComponents path
    else b ++ (pathComponents path).filter (fun c => c ≠ Component.CurDir)

/-- Rust `PathBuf::pop`: drop the final component; a bare root or an
empty path is left unchanged. -/
def popComponent (buf : List Component) : List Component :=
  match buf with
  | [] => []
  | [Component.RootDir] => [Component.RootDir]
  | _ => buf.dropLast

/-- Rust `PathBuf::push` for a single component: pushing the root
replaces the buffer (an absolute path replaces the receiver), any other
component is appended. -/
def pushComponent (buf : List Component) (c : Component) : List Component :=
  match c with
  | Component.RootDir => [Component.RootDir]
  | c => buf ++ [c]

/-- The accumulation loop of `validate_path` (`src/tools.rs` lines
42-51): `ParentDir` pops the accumulator, `CurDir` is dropped, every
other component is pushed. -/
def normalizeComponents (joined : List Component) : List Component :=
  joined.foldl
    (fun result c =>
      match c with
      | Component.ParentDir => popComponent result
      | Component.CurDir => result
      | c => pushComponent result c)
    []

/-- The sandbox rejection message from `src/tools.rs` line 57. -/
def accessDeniedMsg : String := "Access denied: path must be within the current directory"

deriving instance DecidableEq for Except

/-- `validate_path` from `src/tools.rs` lines 34-60: join the requested
path onto the base, normalize lexically, and accept iff the result
starts with (is equal to or nested under) the base. -/
def validate_path (base path : String) : Except ToolError (List Component) :=
  if pathComponents base <+: normalizeComponents (joinedComponents base path) then
    Except.ok (normalizeComponents (joinedComponents base path))
  else Except.error (ToolError.Generic accessDeniedMsg)

/-- Sanity: the unit tests `test_validate_path_normal` and
`test_validate_path_current_dir` from `src/tools.rs`. -/
theorem validate_path_tests_normal :
    validate_path "/work" "file.txt" =
      Except.ok [Component.RootDir, Component.Normal "work", Component.Normal "file.txt"]
    ∧ validate_path "/work" "subdir/file.txt" =
      Except.ok [Component.RootDir, Component.Normal "work", Component.Normal "subdir",
        Component.Normal "file.txt"]
    ∧ validate_path "/work" "." =
      Except.ok [Component.RootDir, Component.Normal "work"]
    ∧ validate_path "/work" "./file.txt" =
      Except.ok [Component.RootDir, Component.Normal "work", Component.Normal "file.txt"] := by
  decide

/-- Sanity: the unit tests `test_validate_path_escape_parent`,
`test_validate_path_stay_in_bounds`, `test_validate_path_absolute`,
`test_validate_path_empty` and `test_validate_path_unforgiving_edge_cases`
from `src/tools.rs`. -/
theorem validate_path_tests_edges :
    validate_path "/work" ".." = Except.error (ToolError.Generic accessDeniedMsg)
    ∧ validate_path "/work" "../../etc/passwd" = Except.error (ToolError.Generic accessDeniedMsg)
    ∧ validate_path "/work" "subdir/../file.txt" =
      Except.ok [Component.RootDir, Component.Normal "work", Component.Normal "file.txt"]
    ∧ validate_path "/work" "/work/file.txt" =
      Except.ok [Component.RootDir, Component.Normal "work", Component.Normal "file.txt"]
    ∧ validate_path "/work" "/etc/passwd" = Except.error (ToolError.Generic accessDeniedMsg)
    ∧ validate_path "/work" "" = Except.ok [Component.RootDir, Component.Normal "work"]
    ∧ validate_path "/work" "subdir/../../outside" =
      Except.error (ToolError.Generic accessDeniedMsg)
    ∧ validate_path "/work" "a/b/../../c" =
      Except.ok [Component.RootDir, Component.Normal "work", Component.Normal "c"]
    ∧ validate_path "/work" "///etc/passwd" = Except.error (ToolError.Generic accessDeniedMsg)
    ∧ validate_path "/work" "/" = Except.error (ToolError.Generic accessDeniedMsg) := by
  decide

/-- C1: for every base root and every requested path string,
`validate_path` returns either the `SandboxViolation` error or a path
equal to the base or nested under it, never a path outside the base;
moreover the purely lexical check rejects exactly when the accumulated
result does not start with the base. -/
theorem validate_path_containment (base path : String) :
    (∀ r, validate_path base path = Except.ok r →
      r = pathComponents base ∨ ∃ rest, rest ≠ [] ∧ r = pathComponents base ++ rest)
    ∧ (validate_path base path = Except.error (ToolError.Generic accessDeniedMsg)
       ↔ ¬ pathComponents base <+: normalizeComponents (joinedComponents base path)) := by
  constructor
  · intro r hr
    unfold validate_path at hr
    split at hr
    · rename_i hpre
      obtain ⟨rest, hrest⟩ := hpre
      cases hr
      cases rest with
      | nil => exact Or.inl (by simpa using hrest.symm)
      | cons x xs => exact Or.inr ⟨x :: xs, by simp, hrest.symm⟩
    · simp at hr
  · unfold validate_path
    split
    · rename_i hpre
      simp [hpre]
    · rename_i hpre
      simp [hpre]

/-- Witness for C1 at base `/work`, requested `a/../b`: the resolved
path `/work/b` is nested under the base. -/
theorem validate_path_containment_witness :
    [Component.RootDir, Component.Normal "work", Component.Normal "b"]
        = pathComponents "/work"
    ∨ ∃ rest, rest ≠ [] ∧
        [Component.RootDir, Component.Normal "work", Component.Normal "b"]
          = pathComponents "/work" ++ rest :=
  (validate_path_containment "/work" "a/../b").1
    [Component.RootDir, Component.Normal "work", Component.Normal "b"] (by decide)

/-- C10: a requested component of three literal dots is an ordinary
filename, not a parent-directory reference: under base `/work` the
request `...` resolves to `/work/...`, and `...` parses to a single
`Normal` component (only genuine `..` components become `ParentDir`). -/
theorem validate_path_literal_dots :
    validate_path "/work" "..." =
      Except.ok [Component.RootDir, Component.Normal "work", Component.Normal "..."]
    ∧ validate_path "/work" "..." = Except.ok (pathComponents "/work/...")
    ∧ pathComponents "..." = [Component.Normal "..."]
    ∧ segToComponent ['.', '.'] = Component.ParentDir := by
  decide

/-! ## The confirmation guard (`Guard` in `src/agent.rs`) -/

/-- `Confirmation` from `src/output.rs`. -/
inductive Confirmation where
  | Yes
  | No
  | Always
deriving DecidableEq, Repr

/-- A `Guard<T>` instance from `src/agent.rs` lines 509-515: the wrapped
tool body, the global yolo flag, the optional auto-approve predicate and
the `always` approval flag (the `AtomicBool`, here threaded explicitly
as state). The terminal output handle carries no decision state and is
not modelled as data; the prompt it would show is recorded in the call
outcome instead. -/
structure Guard (Args Output : Type) where
  tool : Args → Except ToolError Output
  yolo : Bool
  auto_approve : Option (Args → Bool)
  always : Bool

/-- The observable outcome of one `Guard::call`: the returned value, the
`always` flag after the call, whether `output.confirm` was invoked, and
whether the underlying tool was delegated to. -/
structure CallOutcome (Output : Type) where
  result : Except ToolError Output
  newAlways : Bool
  prompted : Bool
  delegated : Bool

/-- `Guard::call` from `src/agent.rs` lines 528-552, with the
confirmation answer the operator would give supplied as an explicit
argument. If yolo is off, the flag unset and the predicate not matching,
the operator is prompted: `Always` stores the flag then delegates, `Yes`
delegates, `No` returns the cancellation error without delegating.
Otherwise the call delegates with no prompt and no state change. -/
def Guard.call {Args Output : Type} (g : Guard Args Output) (args : Args)
    (answer : Confirmation) : CallOutcome Output :=
  let should_auto_approve := (g.auto_approve.map (fun f => f args)).getD false
  if !g.yolo && !g.always && !should_auto_approve then
    match answer with
    | Confirmation.Always =>
      { result := g.tool args, newAlways := true, prompted := true, delegated := true }
    | Confirmation.Yes =>
      { result := g.tool args, newAlways := g.always, prompted := true, delegated := true }
    | Confirmation.No =>
      { result := Except.error (ToolError.Generic "Action cancelled by user"),
        newAlways := g.always, prompted := true, delegated := false }
  else
    { result := g.tool args, newAlways := g.always, prompted := false, delegated := true }

/-- The `guard` constructor from `src/agent.rs` lines 555-568: every
guard instance gets its own fresh `always` flag initialized to false. -/
def mkGuard {Args Output : Type} (tool : Args → Except ToolError Output) (yolo : Bool)
    (auto_approve : Option (Args → Bool)) : Guard Args Output :=
  { tool := tool, yolo := yolo, auto_approve := auto_approve, always := false }

/-- A sequence of calls through one guard instance, threading the
`always` flag from each call into the next. -/
def runCalls {Args Output : Type} :
    Guard Args Output → List (Args × Confirmation) →
      List (CallOutcome Output) × Guard Args Output
  | g, [] => ([], g)
  | g, (args, ans) :: rest =>
    ((g.call args ans) ::
        (runCalls { g with always := (g.call args ans).newAlways } rest).1,
      (runCalls { g with always := (g.call args ans).newAlways } rest).2)

/-- C2: the approval decision precedence of `Guard::call`. Yolo mode
delegates with no prompt and no state mutation; otherwise a set
`always` flag delegates immediately; otherwise a matching auto-approve
predicate delegates without prompting and without mutating the flag;
only when none of these hold is the confirmation prompt presented. -/
theorem guard_call_precedence {Args Output : Type} (g : Guard Args Output)
    (args : Args) (ans : Confirmation) :
    (g.yolo = true →
      (g.call args ans).prompted = false ∧ (g.call args ans).delegated = true ∧
      (g.call args ans).result = g.tool args ∧ (g.call args ans).newAlways = g.always)
    ∧ (g.always = true →
      (g.call args ans).prompted = false ∧ (g.call args ans).delegated = true ∧
      (g.call args ans).result = g.tool args ∧ (g.call args ans).newAlways = g.always)
    ∧ (∀ f, g.auto_approve = some f → f args = true →
      (g.call args ans).prompted = false ∧ (g.call args ans).delegated = true ∧
      (g.call args ans).result = g.tool args ∧ (g.call args ans).newAlways = g.always)
    ∧ (g.yolo = false → g.always = false →
      (g.auto_approve.map (fun f => f args)).getD false = false →
      (g.call args ans).prompted = true) := by
  refine ⟨?_, ?_, ?_, ?_⟩
  · intro hy
    simp [Guard.call, hy]
  · intro ha
    simp [Guard.call, ha]
  · intro f hf hmatch
    simp [Guard.call, hf, hmatch]
  · intro hy ha hauto
    simp [Guard.call, hy, ha, hauto]
    cases ans <;> simp

/-- Witness for C2: with yolo on, a call delegates without prompting. -/
theorem guard_call_precedence_witness :
    (Guard.call
      { tool := fun (_ : String) => Except.ok "done", yolo := true,
        auto_approve := none, always := false } "rm -rf" Confirmation.No).prompted = false :=
  (guard_call_precedence
    { tool := fun (_ : String) => Except.ok "done", yolo := true,
      auto_approve := none, always := false } "rm -rf" Confirmation.No).1 rfl |>.1

/-- C3: when the confirmation prompt is answered `No`, the guard does
not delegate, returns the tool-level error "Action cancelled by user"
(a `Generic` tool error, distinguishable from every `Io` error), and
leaves the `always` flag unchanged. -/
theorem guard_call_denial {Args Output : Type} (g : Guard Args Output) (args : Args)
    (hprompt : (g.call args Confirmation.No).prompted = true) :
    (g.call args Confirmation.No).delegated = false
    ∧ (g.call args Confirmation.No).result =
        Except.error (ToolError.Generic "Action cancelled by user")
    ∧ (g.call args Confirmation.No).newAlways = g.always
    ∧ (∀ s, ToolError.Generic "Action cancelled by user" ≠ ToolError.Io s) := by
  by_cases hc : (!g.yolo && !g.always &&
      !((g.auto_approve.map (fun f => f args)).getD false)) = true
  · refine ⟨?_, ?_, ?_, fun s h => ToolError.noConfusion h⟩ <;> simp [Guard.call, hc]
  · exfalso
    simp [Guard.call, hc] at hprompt

/-- Witness for C3: a guard with yolo off, flag unset and no predicate
prompts, and a `No` answer yields the cancellation error. -/
theorem guard_call_denial_witness :
    (Guard.call
      { tool := fun (_ : String) => Except.ok "done", yolo := false,
        auto_approve := none, always := false } "rm -rf" Confirmation.No).result =
      Except.error (ToolError.Generic "Action cancelled by user") :=
  (guard_call_denial
    { tool := fun (_ : String) => Except.ok "done", yolo := false,
      auto_approve := none, always := false } "rm -rf" rfl).2.1

/-- The `always` flag never goes from true back to false in a call. -/
theorem guard_call_always_persists {Args Output : Type} (g : Guard Args Output)
    (args : Args) (ans : Confirmation) (h : g.always = true) :
    (g.call args ans).newAlways = true := by
  simp [Guard.call, h]

/-- With the `always` flag set, no call in any subsequent sequence
through the same guard instance prompts or is denied. -/
theorem runCalls_no_prompt_of_always {Args Output : Type} :
    ∀ (calls : List (Args × Confirmation)) (g : Guard Args Output),
      g.always = true →
      ∀ o ∈ (runCalls g calls).1, o.prompted = false ∧ o.delegated = true
  | [], g, h => by simp [runCalls]
  | (args, ans) :: rest, g, h => by
    intro o ho
    simp only [runCalls, List.mem_cons] at ho
    rcases ho with rfl | ho
    · constructor <;> simp [Guard.call, h]
    · exact runCalls_no_prompt_of_always rest
        { g with always := (g.call args ans).newAlways }
        (guard_call_always_persists g args ans h) o ho

/-- C4: an `Always` answer at a prompt sets the flag of the guard; once the
flag of a guard instance is set, every subsequent call through that
instance delegates without any prompt, whatever the arguments and
answers; and each guard instance is constructed with its own fresh flag
initialized to false. -/
theorem guard_always_idempotent {Args Output : Type} (g : Guard Args Output)
    (args0 : Args) :
    ((Guard.call g args0 Confirmation.Always).prompted = true →
      (Guard.call g args0 Confirmation.Always).newAlways = true)
    ∧ (g.always = true → ∀ calls : List (Args × Confirmation),
        ∀ o ∈ (runCalls g calls).1, o.prompted = false ∧ o.delegated = true)
    ∧ (∀ (tool : Args → Except ToolError Output) (yolo : Bool)
        (auto : Option (Args → Bool)), (mkGuard tool yolo auto).always = false) := by
  refine ⟨?_, ?_, fun tool yolo auto => rfl⟩
  · intro hp
    by_cases hc : (!g.yolo && !g.always &&
        !((g.auto_approve.map (fun f => f args0)).getD false)) = true
    · simp [Guard.call, hc]
    · exfalso
      simp [Guard.call, hc] at hp
  · intro h calls
    exact runCalls_no_prompt_of_always calls g h

/-- Witness for C4: with the flag already set, a later call with
different arguments and a `No` answer still delegates unprompted. -/
theorem guard_always_idempotent_witness :
    ∀ o ∈ (runCalls
      { tool := fun (_ : String) => Except.ok "done", yolo := false,
        auto_approve := none, always := true }
      [("first", Confirmation.No), ("second", Confirmation.No)]).1,
      o.prompted = false ∧ o.delegated = true :=
  (guard_always_idempotent
    { tool := fun (_ : String) => Except.ok "done", yolo := false,
      auto_approve := none, always := true } "x").2.1 rfl
    [("first", Confirmation.No), ("second", Confirmation.No)]

/-! ## Tool bodies and registration (`src/tools.rs`, `build_rig_agent`) -/

/-- Rust `str::contains` for a substring, over character lists. -/
def containsSub : List Char → List Char → Bool
  | _, [] => true
  | [], _ :: _ => false
  | c :: rest, old => old.isPrefixOf (c :: rest) || containsSub rest old

/-- Rust `str::matches(old).count()`: the number of non-overlapping
occurrences of `old`; an empty pattern matches at every boundary. -/
def countOcc : List Char → List Char → Nat
  | text, [] => text.length + 1
  | [], _ :: _ => 0
  | c :: rest, old =>
    if old.isPrefixOf (c :: rest) then
      1 + countOcc (List.drop (old.length - 1) rest) old
    else countOcc rest old
termination_by text old => text.length
decreasing_by
  · simp only [List.length_cons, List.length_drop]
    omega
  · simp only [List.length_cons]
    omega

/-- `write_file` from `src/tools.rs` lines 91-95: validate the path,
then write. The filesystem write is abstracted as an oracle giving the
I/O outcome; its errors surface as `ToolError::Io` via the `From`
conversion. -/
def write_file (cwd path content : String) (fsWrite : Except String Unit) :
    Except ToolError String :=
  match validate_path cwd path, content with
  | Except.error e, _ => Except.error e
  | Except.ok _, _ =>
    match fsWrite with
    | Except.error e => Except.error (ToolError.Io e)
    | Except.ok _ => Except.ok "ok"

/-- `edit_file` from `src/tools.rs` lines 101-128: validate the path,
read the file (oracle `fsRead`), report a missing or ambiguous
`old` string as an `ok` message, otherwise write the replaced text
(oracle `fsWrite`). The replaced text itself is a filesystem side
effect and does not appear in the returned value. -/
def edit_file (cwd path old new : String) (all : Bool)
    (fsRead : Except String String) (fsWrite : Except String Unit) :
    Except ToolError String :=
  match validate_path cwd path with
  | Except.error e => Except.error e
  | Except.ok _ =>
    match fsRead with
    | Except.error e => Except.error (ToolError.Io e)
    | Except.ok text =>
      if !(containsSub text.toList old.toList) then
        Except.ok "error: old_string not found"
      else if !all && decide (1 < countOcc text.toList old.toList) then
        Except.ok ("error: old_string appears " ++
          toString (countOcc text.toList old.toList) ++
          " times, must be unique (use all=true)")
      else
        match fsWrite with
        | Except.error e => Except.error (ToolError.Io e)
        | Except.ok _ => Except.ok "ok"

/-- Every error `validate_path` returns is the sandbox violation. -/
theorem validate_path_error_shape (base path : String) (e : ToolError)
    (h : validate_path base path = Except.error e) :
    e = ToolError.Generic accessDeniedMsg := by
  unfold validate_path at h
  split at h
  · simp at h
  · injection h with h1
    exact h1.symm

/-- Every error `write_file` returns is the sandbox violation or a
wrapped I/O error. -/
theorem write_file_error_shape (cwd path content : String)
    (fsWrite : Except String Unit) (x : ToolError)
    (h : write_file cwd path content fsWrite = Except.error x) :
    x = ToolError.Generic accessDeniedMsg ∨ ∃ e, x = ToolError.Io e := by
  unfold write_file at h
  cases hv : validate_path cwd path with
  | error e =>
    rw [hv] at h
    injection h with h1
    exact Or.inl (h1 ▸ validate_path_error_shape cwd path e hv)
  | ok p =>
    rw [hv] at h
    cases fsWrite with
    | error e =>
      injection h with h1
      exact Or.inr ⟨e, h1.symm⟩
    | ok u => simp at h

/-- Every error `edit_file` returns is the sandbox violation or a
wrapped I/O error. -/
theorem edit_file_error_shape (cwd path old new : String) (all : Bool)
    (fsRead : Except String String) (fsWrite : Except String Unit) (x : ToolError)
    (h : edit_file cwd path old new all fsRead fsWrite = Except.error x) :
    x = ToolError.Generic accessDeniedMsg ∨ ∃ e, x = ToolError.Io e := by
  unfold edit_file at h
  cases hv : validate_path cwd path with
  | error e =>
    rw [hv] at h
    injection h with h1
    exact Or.inl (h1 ▸ validate_path_error_shape cwd path e hv)
  | ok p =>
    rw [hv] at h
    cases fsRead with
    | error e =>
      injection h with h1
      exact Or.inr ⟨e, h1.symm⟩
    | ok text =>
      dsimp only at h
      split at h
      · simp at h
      · split at h
        · simp at h
        · cases fsWrite with
          | error e =>
            injection h with h1
            exact Or.inr ⟨e, h1.symm⟩
          | ok u => simp at h

/-- The tools registered on the agent in `build_rig_agent`
(`src/agent.rs` lines 472-503). -/
inductive ToolName where
  | read_file
  | write_file
  | edit_file
  | glob_files
  | grep_text
  | list_dir
  | make_dir
  | remove
  | move_file
  | copy_file
  | bash
  | agent_browser
deriving DecidableEq, Repr

/-- One tool registration: its name and whether it was wrapped in the
confirmation guard. -/
structure ToolRegistration where
  name : ToolName
  guarded : Bool
deriving DecidableEq, Repr

/-- The registration sequence of `build_rig_agent` (`src/agent.rs`
lines 472-503): six plain tools, then four guarded filesystem tools,
the guarded bash tool, and the guarded browser tool when the
`agent-browser` binary is available. -/
def build_rig_agent (browser_available : Bool) : List ToolRegistration :=
  [ { name := ToolName.read_file, guarded := false },
    { name := ToolName.write_file, guarded := false },
    { name := ToolName.edit_file, guarded := false },
    { name := ToolName.glob_files, guarded := false },
    { name := ToolName.grep_text, guarded := false },
    { name := ToolName.list_dir, guarded := false },
    { name := ToolName.make_dir, guarded := true },
    { name := ToolName.remove, guarded := true },
    { name := ToolName.move_file, guarded := true },
    { name := ToolName.copy_file, guarded := true },
    { name := ToolName.bash, guarded := true } ]
  ++ (if browser_available then [{ name := ToolName.agent_browser, guarded := true }] else [])

/-- Dispatch of one tool call by the engine: a guarded registration
routes through `Guard::call`; an unguarded one invokes the tool body
directly, with no prompt and no guard state. -/
def dispatchCall {Args Output : Type} (guarded : Bool)
    (tool : Args → Except ToolError Output) (yolo always : Bool)
    (auto : Option (Args → Bool)) (args : Args) (ans : Confirmation) :
    CallOutcome Output :=
  if guarded then
    Guard.call { tool := tool, yolo := yolo, auto_approve := auto, always := always } args ans
  else
    { result := tool args, newAlways := always, prompted := false, delegated := true }

/-- C5: `write_file` and `edit_file` are registered without the guard
wrapper; only `make_dir`, `remove`, `move_file`, `copy_file`, `bash` and
`agent_browser` are guarded; an unguarded dispatch never prompts and
always runs the tool body; and neither `write_file` nor `edit_file` can
return the "Action cancelled by user" cancellation error. -/
theorem write_edit_unguarded {Args Output : Type} (browser_available : Bool)
    (tool : Args → Except ToolError Output) (yolo always : Bool)
    (auto : Option (Args → Bool)) (args : Args) (ans : Confirmation) :
    (∀ r ∈ build_rig_agent browser_available,
      (r.name = ToolName.write_file ∨ r.name = ToolName.edit_file) → r.guarded = false)
    ∧ (∀ r ∈ build_rig_agent browser_available, r.guarded = true →
        (r.name = ToolName.make_dir ∨ r.name = ToolName.remove ∨
         r.name = ToolName.move_file ∨ r.name = ToolName.copy_file ∨
         r.name = ToolName.bash ∨ r.name = ToolName.agent_browser))
    ∧ ((dispatchCall false tool yolo always auto args ans).prompted = false
       ∧ (dispatchCall false tool yolo always auto args ans).result = tool args
       ∧ (dispatchCall false tool yolo always auto args ans).delegated = true)
    ∧ (∀ cwd path content fsW,
        write_file cwd path content fsW ≠
          Except.error (ToolError.Generic "Action cancelled by user"))
    ∧ (∀ cwd path old new all fsR fsW,
        edit_file cwd path old new all fsR fsW ≠
          Except.error (ToolError.Generic "Action cancelled by user")) := by
  refine ⟨?_, ?_, ⟨rfl, rfl, rfl⟩, ?_, ?_⟩
  · cases browser_available <;> decide
  · cases browser_available <;> decide
  · intro cwd path content fsW h
    rcases write_file_error_shape cwd path content fsW _ h with h1 | ⟨e, h1⟩
    · exact absurd h1 (by decide)
    · exact ToolError.noConfusion h1
  · intro cwd path old new all fsR fsW h
    rcases edit_file_error_shape cwd path old new all fsR fsW _ h with h1 | ⟨e, h1⟩
    · exact absurd h1 (by decide)
    · exact ToolError.noConfusion h1

/-- Witness for C5: a concrete `write_file` call under root `/work`
with a successful filesystem write is not the cancellation error. -/
theorem write_edit_unguarded_witness :
    write_file "/work" "notes.txt" "hello" (Except.ok ()) ≠
      Except.error (ToolError.Generic "Action cancelled by user") :=
  (write_edit_unguarded false (fun (_ : String) => Except.ok "done") false false
    none "x" Confirmation.Yes).2.2.2.1 "/work" "notes.txt" "hello" (Except.ok ())

/-! ## Bash auto-approval (`build_rig_agent`, `src/agent.rs` lines 487-499) -/

/-- The arguments of the bash tool: the shell command string. -/
structure BashArgs where
  cmd : String

/-- The bash auto-approve predicate built in `build_rig_agent`: some
pattern in the configured list, once compiled, matches the command.
`compile` abstracts `regex::Regex::new` (`none` is a compile failure)
together with `is_match`; a failed compile contributes
`unwrap_or(false)`, exactly as in the source. -/
def bash_auto_approve (compile : String → Option (String → Bool))
    (auto_allow : List String) (cmd : String) : Bool :=
  auto_allow.any (fun pattern => ((compile pattern).map (fun m => m cmd)).getD false)

/-- C6: a configured pattern that fails to compile is treated as
non-matching for every command (fails closed): it contributes `false`,
never an error; if every pattern fails to compile the predicate is
`false`, and the guarded bash call falls through to the normal
confirmation prompt. -/
theorem auto_approve_fails_closed
    (compile : String → Option (String → Bool)) (auto_allow : List String)
    (args : BashArgs) (ans : Confirmation)
    (tool : BashArgs → Except ToolError String)
    (hfail : ∀ p ∈ auto_allow, compile p = none) :
    (∀ p ∈ auto_allow, ∀ c, ((compile p).map (fun m => m c)).getD false = false)
    ∧ bash_auto_approve compile auto_allow args.cmd = false
    ∧ (Guard.call
        { tool := tool, yolo := false,
          auto_approve := some (fun a => bash_auto_approve compile auto_allow a.cmd),
          always := false } args ans).prompted = true := by
  have h1 : ∀ p ∈ auto_allow, ∀ c, ((compile p).map (fun m => m c)).getD false = false := by
    intro p hp c
    rw [hfail p hp]
    rfl
  have h2 : bash_auto_approve compile auto_allow args.cmd = false := by
    unfold bash_auto_approve
    rw [List.any_eq_false]
    intro p hp
    simp [hfail p hp]
  refine ⟨h1, h2, ?_⟩
  cases ans <;> simp [Guard.call, h2]

/-- Witness for C6: with the single pattern `(` (which the regex engine
rejects) the predicate does not match `ls`, and the guarded call still
prompts. -/
theorem auto_approve_fails_closed_witness :
    bash_auto_approve (fun _ => none) ["("] "ls" = false
    ∧ (Guard.call
        { tool := fun (_ : BashArgs) => Except.ok "done", yolo := false,
          auto_approve := some (fun a => bash_auto_approve (fun _ => none) ["("] a.cmd),
          always := false } { cmd := "ls" } Confirmation.Yes).prompted = true :=
  ⟨(auto_approve_fails_closed (fun _ => none) ["("] { cmd := "ls" } Confirmation.Yes
      (fun _ => Except.ok "done") (fun p _ => rfl)).2.1,
    (auto_approve_fails_closed (fun _ => none) ["("] { cmd := "ls" } Confirmation.Yes
      (fun _ => Except.ok "done") (fun p _ => rfl)).2.2⟩

/-! ## The conversation turn (`CodeAgent::prompt`, `src/agent.rs` lines 591-610) -/

/-- The terminal-indicator calls `CodeAgent::prompt` makes on its
output handle. -/
inductive OutputEvent where
  | displayThinking (msg : String)
  | stopThinking
deriving DecidableEq, Repr

/-- The `PicocodeError` variant produced by `CodeAgent::prompt`
(`src/lib.rs`; the other variants are not reachable from `prompt`). -/
inductive PicocodeError where
  | Other (msg : String)
deriving DecidableEq, Repr

/-- `CodeAgent::prompt` from `src/agent.rs` lines 591-610, with the
completion outcome of the engine abstracted as an oracle. It first calls
`display_thinking("Thinking...")`; on an engine error the `?` operator
returns the mapped error at once, so `stop_thinking` runs only on the
success path. Returns the emitted indicator events and the result. -/
def CodeAgent.prompt (engine : Except String String) :
    List OutputEvent × Except PicocodeError String :=
  match engine with
  | Except.error e =>
    ([OutputEvent.displayThinking "Thinking..."], Except.error (PicocodeError.Other e))
  | Except.ok response =>
    ([OutputEvent.displayThinking "Thinking...", OutputEvent.stopThinking],
      Except.ok response)

/-- C7 counterexample: on the failure path (the completion engine
returns an error), `CodeAgent::prompt` never calls `stop_thinking`, so
the claim that every call clears the thinking indicator before
returning is false. -/
theorem prompt_clears_thinking_counterexample :
    OutputEvent.stopThinking ∉ (CodeAgent.prompt (Except.error "completion failed")).1 := by
  decide

/-- C7 (amended): `CodeAgent::prompt` clears the thinking indicator
before returning on the success path; on the failure path it returns
the mapped engine error without calling `stop_thinking`. -/
theorem prompt_clears_thinking_amended (engine : Except String String) :
    (∀ r, engine = Except.ok r →
      (CodeAgent.prompt engine).1 =
        [OutputEvent.displayThinking "Thinking...", OutputEvent.stopThinking]
      ∧ (CodeAgent.prompt engine).2 = Except.ok r)
    ∧ (∀ e, engine = Except.error e →
      (CodeAgent.prompt engine).1 = [OutputEvent.displayThinking "Thinking..."]
      ∧ (CodeAgent.prompt engine).2 = Except.error (PicocodeError.Other e)) := by
  constructor
  · intro r h
    subst h
    exact ⟨rfl, rfl⟩
  · intro e h
    subst h
    exact ⟨rfl, rfl⟩

/-- Witness for the amended C7: a successful turn ends with
`stop_thinking`. -/
theorem prompt_clears_thinking_amended_witness :
    (CodeAgent.prompt (Except.ok "done")).1 =
      [OutputEvent.displayThinking "Thinking...", OutputEvent.stopThinking]
    ∧ (CodeAgent.prompt (Except.ok "done")).2 = Except.ok "done" :=
  (prompt_clears_thinking_amended (Except.ok "done")).1 "done" rfl

/-! ## The round cap (`.multi_turn(self.tool_call_limit)`) -/

/-- What the model asks for at a given round: another tool call, or the
final assistant text. -/
inductive ModelStep where
  | toolCall (name : String) (args : String)
  | finalText (text : String)

/-- Modelled from the spec: the multi-turn tool-call loop of the
external completion engine (the rig `multi_turn` loop), which is not
part of the sources of this repository; `CodeAgent::prompt` configures
it with the `tool_call_limit` of the agent (`src/agent.rs` line 599). Per spec section
4.3 the engine performs zero or more rounds of "model requests a tool
call, the tool executes, the result is fed back" up to the cap, then
returns the final assistant text; `model i` is the request the model makes at
round `i`. Returns the number of tool-call rounds performed and the
final text, or `none` when the cap cut the exchange short. -/
def multiTurn (model : Nat → ModelStep) : Nat → Nat → Nat × Option String
  | i, 0 =>
    match model i with
    | ModelStep.finalText t => (0, some t)
    | ModelStep.toolCall _ _ => (0, none)
  | i, cap + 1 =>
    match model i with
    | ModelStep.finalText t => (0, some t)
    | ModelStep.toolCall _ _ =>
      ((multiTurn model (i + 1) cap).1 + 1, (multiTurn model (i + 1) cap).2)

/-- One user turn: `CodeAgent::prompt` hands the engine the
round cap of the agent, configured once at agent construction. -/
def promptRounds (tool_call_limit : Nat) (model : Nat → ModelStep) : Nat × Option String :=
  multiTurn model 0 tool_call_limit

/-- The engine never performs more tool-call rounds than its cap. -/
theorem multiTurn_rounds_le (model : Nat → ModelStep) :
    ∀ (cap i : Nat), (multiTurn model i cap).1 ≤ cap
  | 0, i => by
    unfold multiTurn
    cases model i <;> simp
  | cap + 1, i => by
    unfold multiTurn
    cases model i with
    | finalText t => simp
    | toolCall n a =>
      simpa using Nat.succ_le_succ (multiTurn_rounds_le model cap (i + 1))

/-- A model that always requests another tool call is stopped at
exactly the cap. -/
theorem multiTurn_rounds_eq (model : Nat → ModelStep)
    (h : ∀ i, ∃ n a, model i = ModelStep.toolCall n a) :
    ∀ (cap i : Nat), (multiTurn model i cap).1 = cap
  | 0, i => by
    obtain ⟨n, a, hi⟩ := h i
    unfold multiTurn
    rw [hi]
  | cap + 1, i => by
    obtain ⟨n, a, hi⟩ := h i
    unfold multiTurn
    rw [hi]
    simpa using multiTurn_rounds_eq model h cap (i + 1)

/-- C8: with the round cap configured at agent construction, a user
turn performs at most that many tool-call rounds and terminates with a
deterministic result (the loop is a total function), even when the
model would request more; a model requesting tool calls forever is cut
off at exactly the cap. -/
theorem prompt_round_cap (tool_call_limit : Nat) (model : Nat → ModelStep) :
    (promptRounds tool_call_limit model).1 ≤ tool_call_limit
    ∧ ((∀ i, ∃ n a, model i = ModelStep.toolCall n a) →
      (promptRounds tool_call_limit model).1 = tool_call_limit) :=
  ⟨multiTurn_rounds_le model tool_call_limit 0,
    fun h => multiTurn_rounds_eq model h tool_call_limit 0⟩

/-- Witness for C8: a model that would keep requesting tool calls
forever is stopped after exactly 3 rounds under cap 3. -/
theorem prompt_round_cap_witness :
    (promptRounds 3 (fun _ => ModelStep.toolCall "bash" "ls")).1 = 3 :=
  (prompt_round_cap 3 (fun _ => ModelStep.toolCall "bash" "ls")).2
    (fun _ => ⟨"bash", "ls", rfl⟩)

/-! ## Interactive-loop mode framing (`run_interactive`, `src/agent.rs` lines 44-151) -/

/-- `AgentMode` from `src/agent.rs`. -/
inductive AgentMode where
  | Code
  | Plan
deriving DecidableEq, Repr

/-- Rust `str::starts_with`, over character lists. -/
def strStartsWith (s p : String) : Bool :=
  p.toList.isPrefixOf s.toList

/-- `PLAN_MODE_PROMPT` from `src/agent.rs` lines 387-447, the fixed
planning-protocol preamble. -/
def PLAN_MODE_PROMPT : String :=
  "You are picocode in PLANNING MODE. Your role is to explore, analyze, and design implementation plans before writing code.\n"
  ++ "\n"
  ++ "### PLANNING MODE WORKFLOW\n"
  ++ "\n"
  ++ "1. **Deep Exploration**: Start by thoroughly understanding the codebase\n"
  ++ "   - Use `list_dir` to understand project structure\n"
  ++ "   - Use `read_file` to examine relevant files\n"
  ++ "   - Use `grep_text` to find patterns, functions, and related code\n"
  ++ "   - Use `glob_files` to locate files by name patterns\n"
  ++ "\n"
  ++ "2. **Analysis**: Understand the problem in context\n"
  ++ "   - What exists already that can be reused?\n"
  ++ "   - What patterns does this codebase follow?\n"
  ++ "   - What are the dependencies and constraints?\n"
  ++ "   - What are potential edge cases or challenges?\n"
  ++ "\n"
  ++ "3. **Design**: Present a clear implementation plan\n"
  ++ "   - Break down the task into logical steps\n"
  ++ "   - Identify specific files to modify and why\n"
  ++ "   - Suggest code patterns that match the existing codebase\n"
  ++ "   - Consider testing and verification approaches\n"
  ++ "   - Present the plan as structured markdown in your response\n"
  ++ "\n"
  ++ "4. **Iteration**: Be ready to refine the plan\n"
  ++ "   - Answer questions about the approach\n"
  ++ "   - Adjust based on user feedback\n"
  ++ "   - Consider alternative approaches if requested\n"
  ++ "\n"
  ++ "### IMPORTANT GUIDELINES FOR PLANNING MODE\n"
  ++ "\n"
  ++ "- **Present plans in chat**: Write your plan as markdown in your response, not to a file\n"
  ++ "- **Exploration over execution**: Focus on reading and understanding, not editing\n"
  ++ "- **Be thorough but concise**: Provide enough detail to implement, but stay focused\n"
  ++ "- **Avoid premature implementation**: Don\x27t edit files or run commands unless necessary for understanding\n"
  ++ "- **Ask clarifying questions**: If requirements are unclear, ask before finalizing the plan\n"
  ++ "- **Think architecturally**: Consider how changes fit into the larger codebase\n"
  ++ "\n"
  ++ "### PLAN STRUCTURE TEMPLATE\n"
  ++ "\n"
  ++ "When presenting a plan, use this structure:\n"
  ++ "\n"
  ++ "```markdown\n"
  ++ "## Implementation Plan: [Task Name]\n"
  ++ "\n"
  ++ "### Context\n"
  ++ "- Why this change is needed\n"
  ++ "- Current state of the codebase\n"
  ++ "- Key files and components involved\n"
  ++ "\n"
  ++ "### Approach\n"
  ++ "1. Step-by-step breakdown\n"
  ++ "2. Files to modify and why\n"
  ++ "3. Functions/components to add or change\n"
  ++ "\n"
  ++ "### Verification\n"
  ++ "- How to test the changes\n"
  ++ "- Edge cases to consider\n"
  ++ "```\n"
  ++ "\n"
  ++ "Remember: You\x27re in planning mode. The user will switch to code mode when ready to implement.\n"

/-- What one iteration of the interactive loop does with an input line. -/
inductive LoopAction where
  | continueLoop
  | exitLoop
  | sendToModel (input : String)
deriving DecidableEq, Repr

/-- The input handling of one `run_interactive` iteration
(`src/agent.rs` lines 60-148): empty lines are skipped; `/plan`,
`/code`, `/write...` and `/go` are intercepted commands (with `/go`
in Plan mode sending the fixed directive); `/q` and `exit` leave the
loop; any other line is framed by the current mode — wrapped with the
planning preamble in Plan mode, sent verbatim in Code mode. -/
def interactiveStep (mode : AgentMode) (input : String) : LoopAction × AgentMode :=
  if input = "" then (LoopAction.continueLoop, mode)
  else if input = "/plan" then (LoopAction.continueLoop, AgentMode.Plan)
  else if input = "/code" then (LoopAction.continueLoop, AgentMode.Code)
  else if strStartsWith input "/write" then (LoopAction.continueLoop, mode)
  else if input = "/go" then
    match mode with
    | AgentMode.Code => (LoopAction.continueLoop, AgentMode.Code)
    | AgentMode.Plan => (LoopAction.sendToModel "Implement the plan.", AgentMode.Code)
  else if input = "/q" ∨ input = "exit" then (LoopAction.exitLoop, mode)
  else
    match mode with
    | AgentMode.Plan =>
      (LoopAction.sendToModel (PLAN_MODE_PROMPT ++ "\n\nUser Request: " ++ input),
        AgentMode.Plan)
    | AgentMode.Code => (LoopAction.sendToModel input, AgentMode.Code)

/-- C9: a non-empty, non-command input line is framed by the current
mode: in Plan mode the model input is the fixed planning preamble
followed by the user line, in Code mode it is exactly the user line,
verbatim. -/
theorem mode_framing (mode : AgentMode) (input : String)
    (hne : input ≠ "") (hplan : input ≠ "/plan") (hcode : input ≠ "/code")
    (hwrite : strStartsWith input "/write" = false) (hgo : input ≠ "/go")
    (hq : input ≠ "/q") (hexit : input ≠ "exit") :
    (mode = AgentMode.Plan →
      (interactiveStep mode input).1 =
        LoopAction.sendToModel (PLAN_MODE_PROMPT ++ "\n\nUser Request: " ++ input))
    ∧ (mode = AgentMode.Code →
      (interactiveStep mode input).1 = LoopAction.sendToModel input) := by
  constructor <;> intro hm <;> subst hm <;>
    simp [interactiveStep, hne, hplan, hcode, hwrite, hgo, hq, hexit]

/-- Witness for C9: in Plan mode, `add auth` is sent as the planning
preamble plus the line; the preamble is a true prefix of the model
input. -/
theorem mode_framing_witness :
    (interactiveStep AgentMode.Plan "add auth").1 =
      LoopAction.sendToModel (PLAN_MODE_PROMPT ++ "\n\nUser Request: " ++ "add auth") :=
  (mode_framing AgentMode.Plan "add auth" (by decide) (by decide) (by decide) (by decide)
    (by decide) (by decide) (by decide)).1 rfl

end Picocode
